import Mathlib

/-
Shallow embedding of the ComfyUI-RTX-Remix node utilities
(src/nodes/common.py) and proofs of the specification claims.

Python values flowing between nodes are modelled by the dynamic type
PyValue; a tuple returned by an execution method is modelled by a Lean
list; keyword-argument dictionaries are modelled by association lists
with Python dict.pop semantics (removing the entry, failing when the
key is absent).
-/

set_option autoImplicit false

/-- Dynamic Python value, covering the value kinds the nodes handle. -/
inductive PyValue where
  | str (s : String)
  | int (n : Int)
  | bool (b : Bool)
  | list (elems : List PyValue)

/-- Keyword-argument dictionary of an execution call, as an association list. -/
abbrev Kwargs := List (String × PyValue)

/-- Embedding of Python dict.pop key: returns the stored value together
with the dictionary with that entry removed, and fails (KeyError) when the
key is absent. -/
def Kwargs.pop : Kwargs → String → Option (PyValue × Kwargs)
  | [], _ => Option.none
  | (k, v) :: rest, key =>
      if k = key then some (v, rest)
      else Option.map (fun p => (p.1, (k, v) :: p.2)) (Kwargs.pop rest key)

/-- Membership of a key in a keyword-argument dictionary. -/
def Kwargs.hasKey : Kwargs → String → Bool
  | [], _ => false
  | (k, _) :: rest, key => k == key || Kwargs.hasKey rest key

/-- Transient attributes the context wrapper stores on the node instance
(self.context and self.enable_this_node), unset before the call. -/
structure InstanceState where
  context : Option PyValue := Option.none
  enable_this_node : Option PyValue := Option.none

/-- Modelled from the spec: the execution methods of the node classes to
which the context decorator is applied are defined in repository files not
under src/. Per the spec, such a method may access the stored self.context
but none of them inspects the enabled flag (the flag is consumed, not
inspected; only nodes that explicitly check it would branch on it, and
none here do). The method therefore receives the stored context attribute,
the positional arguments, and the remaining keyword arguments. -/
abbrev NodeFunc := Option PyValue → List PyValue → Kwargs → List PyValue

/-- Embedding of ContextExecutionFuncWrapper (src/nodes/common.py lines
52-65): the bound wrapper pops "context" and "enable_this_node" from the
keyword arguments (KeyError, modelled as Option.none, when a key is
absent), stores them on the instance, invokes the original method with the
remaining arguments, and returns the context prepended to the result
tuple. -/
def ContextExecutionFuncWrapper (func : NodeFunc) (inst0 : InstanceState)
    (args : List PyValue) (kwargs : Kwargs) :
    Option (InstanceState × List PyValue) :=
  match Kwargs.pop kwargs "context" with
  | Option.none => Option.none
  | some (ctx, kw1) =>
    match Kwargs.pop kw1 "enable_this_node" with
    | Option.none => Option.none
    | some (en, kw2) =>
      let inst := { inst0 with context := some ctx, enable_this_node := some en }
      some (inst, ctx :: func inst.context args kw2)

/-- Options dictionary of one declared input (defaults, constraints). -/
abbrev Opts := List (String × PyValue)

/-- Inner dictionary of a schema section: input name to (type name, options). -/
abbrev InputDict := List (String × String × Opts)

/-- Declared input schema of a node: the dictionaries under the
"required" and "optional" sections. -/
structure InputTypes where
  required : InputDict := []
  optional : InputDict := []

/-- Modelled from the spec: CONTEXT_TYPE, the type-name constant for the
context value, lives in nodes/constant.py which is not under src/; the
claims use it only abstractly, so its concrete string is immaterial. -/
def CONTEXT_TYPE : String := "REMIX_CONTEXT"

/-- Embedding of get_context_inputs (lines 29-30). -/
def get_context_inputs : Unit → InputTypes := fun _ =>
  { required := [("context", CONTEXT_TYPE, [("forceInput", PyValue.bool true)])] }

/-- Embedding of get_enabled_inputs (lines 33-34). -/
def get_enabled_inputs : Unit → InputTypes := fun _ =>
  { required := [("enable_this_node", "BOOLEAN", [("default", PyValue.bool true)])] }

/-- Modelled from the spec: merge_dict, imported from nodes/utils.py which
is not under src/. Per the spec it is a pure function merging two nested
input-schema dictionaries: the entries of both arguments are combined in
each of the required and optional sections, the first argument
contributing the extra entries ahead of the declared ones. -/
def merge_dict (a b : InputTypes) : InputTypes :=
  { required := a.required ++ b.required
    optional := a.optional ++ b.optional }

/-- Embedding of wrap_input_types_with (lines 43-49): wraps the
INPUT_TYPES classmethod so it returns the merge of the extra entries with
the original schema. -/
def wrap_input_types_with (func input_fn : Unit → InputTypes) : Unit → InputTypes :=
  fun _ => merge_dict (input_fn ()) (func ())

/-- A node class as the decorators see it: the INPUT_TYPES classmethod,
the RETURN_TYPES and RETURN_NAMES class attributes, the optional
OUTPUT_IS_LIST attribute, and the execution method designated by
FUNCTION. -/
structure NodeClass where
  INPUT_TYPES : Unit → InputTypes
  RETURN_TYPES : List String
  RETURN_NAMES : List String
  OUTPUT_IS_LIST : Option (List Bool) := Option.none
  func : NodeFunc

/-- Embedding of add_context_outputs (lines 68-76): prepends the context
entry to RETURN_TYPES and RETURN_NAMES, and to OUTPUT_IS_LIST when that
attribute exists. -/
def add_context_outputs (cls : NodeClass) : NodeClass :=
  { cls with
    RETURN_TYPES := CONTEXT_TYPE :: cls.RETURN_TYPES
    RETURN_NAMES := "context" :: cls.RETURN_NAMES
    OUTPUT_IS_LIST := Option.map (fun l => false :: l) cls.OUTPUT_IS_LIST }

/-- A node class after the full context decorator: its execution method is
the fallible wrapped one. -/
structure WrappedNodeClass where
  INPUT_TYPES : Unit → InputTypes
  RETURN_TYPES : List String
  RETURN_NAMES : List String
  OUTPUT_IS_LIST : Option (List Bool)
  method : InstanceState → List PyValue → Kwargs → Option (InstanceState × List PyValue)

/-- Embedding of add_context_input_enabled_and_output (lines 79-99):
applies add_context_outputs, wraps INPUT_TYPES first with the context
input and then with the enabled input, and replaces the execution method
by its context wrapper. -/
def add_context_input_enabled_and_output (cls : NodeClass) : WrappedNodeClass :=
  let cls1 := add_context_outputs cls
  let it1 := wrap_input_types_with cls1.INPUT_TYPES get_context_inputs
  let it2 := wrap_input_types_with it1 get_enabled_inputs
  { INPUT_TYPES := it2
    RETURN_TYPES := cls1.RETURN_TYPES
    RETURN_NAMES := cls1.RETURN_NAMES
    OUTPUT_IS_LIST := cls1.OUTPUT_IS_LIST
    method := ContextExecutionFuncWrapper cls1.func }

/-- Embedding of RemixContext (line 26), the immutable (address, port) pair. -/
structure RemixContext where
  address : String
  port : Int

namespace StartContext

/-- Embedding of StartContext.execute (lines 149-150). -/
def execute (address : String) (port : Int) : List RemixContext :=
  [{ address := address, port := port }]

end StartContext

namespace EndContext

/-- Embedding of EndContext.execute (lines 169-170): returns the empty tuple. -/
def execute (context : RemixContext) : List PyValue := []

/-- Invocation of EndContext.execute as the caller sees it: the method
body performs no mutation, so the call yields the output tuple alongside
the callers context value, unchanged. -/
def call (context : RemixContext) : List PyValue × RemixContext :=
  (execute context, context)

end EndContext

namespace StringConcatenate

/-- Embedding of StringConcatenate.execute (lines 211-212), with the
declared default separator. -/
def execute (string1 string2 : String) (separator : String := "_") : List String :=
  [string1 ++ separator ++ string2]

end StringConcatenate

namespace AnyType

/-- Embedding of AnyType.__ne__ (lines 216-218): the inequality comparison
of the match-all pseudo-type always returns False. -/
def ne (self : String) (other : PyValue) : Bool := false

/-- Embedding of the equality comparison on an AnyType instance: __eq__ is
not overridden, so it is the inherited str.__eq__, true exactly on the
equal string (distinct non-string objects compare unequal by the identity
fallback). -/
def eq (self : String) (other : PyValue) : Bool :=
  match other with
  | PyValue.str t => self == t
  | _ => false

end AnyType

/-- Embedding of the module-level AnyType instance (line 221). -/
def _any : String := "*"

namespace Switch

/-- Embedding of Switch.execute (lines 246-247): indexes the selector
batch at 0 (IndexError, modelled as Option.none, on an empty batch) and
returns the corresponding branch as a one-element tuple. -/
def execute (if_true if_false : PyValue) (switcher : List Bool) :
    Option (List PyValue) :=
  match switcher with
  | [] => Option.none
  | b :: _ => some [if b then if_true else if_false]

end Switch

namespace InvertBool

/-- Embedding of InvertBool.execute (lines 268-269). -/
def execute (value : Bool) : List Bool := [!value]

end InvertBool

namespace StrToList

/-- Embedding of StrToList.execute (lines 291-292). -/
def execute (value : String) : List (List String) := [[value]]

end StrToList

/- Helper lemmas about the keyword-argument dictionary. -/

theorem Kwargs.pop_eq_none_iff (kw : Kwargs) (key : String) :
    Kwargs.pop kw key = Option.none ↔ Kwargs.hasKey kw key = false := by
  induction kw with
  | nil => simp [Kwargs.pop, Kwargs.hasKey]
  | cons p rest ih =>
      obtain ⟨k, v⟩ := p
      by_cases h : k = key
      · simp [Kwargs.pop, Kwargs.hasKey, h]
      · simp [Kwargs.pop, Kwargs.hasKey, h, ih]

theorem Kwargs.hasKey_pop (kw : Kwargs) (key key2 : String) (v : PyValue)
    (kw2 : Kwargs) (hne : key2 ≠ key)
    (h : Kwargs.pop kw key = some (v, kw2)) :
    Kwargs.hasKey kw2 key2 = Kwargs.hasKey kw key2 := by
  induction kw generalizing kw2 v with
  | nil => simp [Kwargs.pop] at h
  | cons p rest ih =>
      obtain ⟨k, w⟩ := p
      by_cases hk : k = key
      · simp only [Kwargs.pop, if_pos hk, Option.some.injEq, Prod.mk.injEq] at h
        obtain ⟨-, hkw⟩ := h
        subst hkw
        have : (k == key2) = false := by
          subst hk
          exact beq_eq_false_iff_ne.mpr (Ne.symm hne)
        simp [Kwargs.hasKey, this]
      · simp only [Kwargs.pop, if_neg hk] at h
        cases hrest : Kwargs.pop rest key with
        | none => rw [hrest] at h; exact Option.noConfusion h
        | some q =>
            obtain ⟨v1, kw1⟩ := q
            rw [hrest] at h
            simp only [Option.map_some', Option.some.injEq, Prod.mk.injEq] at h
            obtain ⟨-, hkw⟩ := h
            subst hkw
            simp [Kwargs.hasKey, ih v1 kw1 hrest]

/- Claim theorems. -/

/-- C1: For every node class wrapped by the context-propagation decorator,
for every context value C, every enabled-flag value (true or false), and
any remaining arguments, the wrapped execution method returns a tuple
whose first element is exactly C and whose remaining elements are exactly
the tuple returned by the original, unwrapped execution method applied to
the remaining arguments; the flag value does not affect the returned
tuple. -/
theorem contextWrapper_prepends_context (func : NodeFunc)
    (inst0 : InstanceState) (args : List PyValue) (rest : Kwargs)
    (C : PyValue) (b b2 : Bool) :
    ContextExecutionFuncWrapper func inst0 args
        (("context", C) :: ("enable_this_node", PyValue.bool b) :: rest)
      = some ({ context := some C, enable_this_node := some (PyValue.bool b) },
              C :: func (some C) args rest)
    ∧ Option.map Prod.snd
        (ContextExecutionFuncWrapper func inst0 args
          (("context", C) :: ("enable_this_node", PyValue.bool b) :: rest))
      = Option.map Prod.snd
        (ContextExecutionFuncWrapper func inst0 args
          (("context", C) :: ("enable_this_node", PyValue.bool b2) :: rest)) :=
  ⟨rfl, rfl⟩

/-- C2: Applying add_context_input_enabled_and_output to a node class
yields a class whose declared input schema additionally requires a
"context" entry and an "enable_this_node" entry (the original required and
optional entries following in order), whose RETURN_TYPES has the context
type prepended as first element, and whose RETURN_NAMES has "context"
prepended as first element, the original entries following in order. -/
theorem add_context_input_enabled_and_output_schema (cls : NodeClass) :
    ((add_context_input_enabled_and_output cls).INPUT_TYPES ()).required
        = ("enable_this_node", "BOOLEAN", [("default", PyValue.bool true)])
            :: ("context", CONTEXT_TYPE, [("forceInput", PyValue.bool true)])
            :: (cls.INPUT_TYPES ()).required
    ∧ ((add_context_input_enabled_and_output cls).INPUT_TYPES ()).optional
        = (cls.INPUT_TYPES ()).optional
    ∧ (add_context_input_enabled_and_output cls).RETURN_TYPES
        = CONTEXT_TYPE :: cls.RETURN_TYPES
    ∧ (add_context_input_enabled_and_output cls).RETURN_NAMES
        = "context" :: cls.RETURN_NAMES :=
  ⟨rfl, rfl, rfl, rfl⟩

/-- C3: For every pair of values x and y of any type (modelled as dynamic
PyValue values, with no constraint relating the two) and every boolean b,
Switch.execute with a selector batch whose first element is b returns x
when b is true and y when b is false. -/
theorem switch_execute_selects_branch (x y : PyValue) (rest : List Bool) :
    Switch.execute x y (true :: rest) = some [x]
    ∧ Switch.execute x y (false :: rest) = some [y] :=
  ⟨rfl, rfl⟩

/-- C4 counterexample: the equality comparison of the match-all value with
the object "BOOLEAN" does not report equal (only the inequality comparison
is overridden), refuting the claim that the equality comparison reports
equal for every object. -/
theorem anyType_eq_counterexample :
    AnyType.eq _any (PyValue.str "BOOLEAN") = false := by decide

/-- C4 amended: the inequality comparison of the match-all value with any
object returns false, which is what suppresses the host type checks; the
equality comparison is the inherited string equality, reporting equal for
the equal string "*" but not for an arbitrary object such as "BOOLEAN". -/
theorem anyType_ne_always_false :
    (∀ v : PyValue, AnyType.ne _any v = false)
    ∧ AnyType.eq _any (PyValue.str "*") = true
    ∧ AnyType.eq _any (PyValue.str "BOOLEAN") = false :=
  ⟨fun _ => rfl, by decide, by decide⟩

/-- C5: For all strings a, b and s, StringConcatenate.execute a b s
returns the single-element tuple containing a ++ s ++ b, and when the
separator argument is omitted it defaults to the underscore string. -/
theorem stringConcatenate_execute_spec :
    (∀ a b s : String, StringConcatenate.execute a b s = [a ++ s ++ b])
    ∧ (∀ a b : String, StringConcatenate.execute a b = [a ++ "_" ++ b]) :=
  ⟨fun _ _ _ => rfl, fun _ _ => rfl⟩

/-- C6: InvertBool.execute maps true to false and false to true, and it is
an involution: applying it to the element of its own output returns the
original value. -/
theorem invertBool_execute_involution :
    InvertBool.execute true = [false]
    ∧ InvertBool.execute false = [true]
    ∧ ∀ (x : Bool), ∀ y ∈ InvertBool.execute x, InvertBool.execute y = [x] := by
  refine ⟨rfl, rfl, ?_⟩
  intro x y hy
  cases x <;> simp [InvertBool.execute] at hy ⊢ <;> simp [hy]

/-- C6 witness: the involution conjunct applied at x = true with the
concrete member y = false of its output. -/
theorem invertBool_execute_involution_witness :
    InvertBool.execute false = [true] :=
  invertBool_execute_involution.2.2 true false (by decide)

/-- C7: For every address string and port integer, StartContext.execute
produces the context pair (address, port); EndContext.execute applied to
any context returns the empty tuple, and the call leaves the context value
unchanged. -/
theorem start_end_context_spec :
    (∀ (address : String) (port : Int),
        StartContext.execute address port = [{ address := address, port := port }])
    ∧ (∀ c : RemixContext, EndContext.execute c = [] ∧ EndContext.call c = ([], c)) :=
  ⟨fun _ _ => rfl, fun _ => ⟨rfl, rfl⟩⟩

/-- C8: For every string s, StrToList.execute s returns a tuple whose
single element is the single-element sequence containing exactly s. -/
theorem strToList_execute_spec (s : String) : StrToList.execute s = [[s]] :=
  rfl

/-- C9: A call to a context-wrapped execution method fails if and only if
the incoming keyword arguments are missing the "context" key or the
"enable_this_node" key; when both keys are present the wrapper itself does
not fail. -/
theorem contextWrapper_fails_iff_missing_keys (func : NodeFunc)
    (inst0 : InstanceState) (args : List PyValue) (kwargs : Kwargs) :
    ContextExecutionFuncWrapper func inst0 args kwargs = Option.none
      ↔ (Kwargs.hasKey kwargs "context" = false
          ∨ Kwargs.hasKey kwargs "enable_this_node" = false) := by
  rcases hc : Kwargs.pop kwargs "context" with - | ⟨ctx, kw1⟩
  · have hfail : ContextExecutionFuncWrapper func inst0 args kwargs = Option.none := by
      simp only [ContextExecutionFuncWrapper, hc]
    exact iff_of_true hfail
      (Or.inl ((Kwargs.pop_eq_none_iff kwargs "context").mp hc))
  · have hckey : Kwargs.hasKey kwargs "context" = true := by
      rcases h : Kwargs.hasKey kwargs "context" with - | -
      · exact absurd hc (by simp [(Kwargs.pop_eq_none_iff kwargs "context").mpr h])
      · rfl
    have henkey : Kwargs.hasKey kw1 "enable_this_node"
        = Kwargs.hasKey kwargs "enable_this_node" :=
      Kwargs.hasKey_pop kwargs "context" "enable_this_node" ctx kw1
        (by decide) hc
    rcases he : Kwargs.pop kw1 "enable_this_node" with - | ⟨en, kw2⟩
    · have hfail : ContextExecutionFuncWrapper func inst0 args kwargs = Option.none := by
        simp only [ContextExecutionFuncWrapper, hc, he]
      exact iff_of_true hfail
        (Or.inr (henkey ▸ (Kwargs.pop_eq_none_iff kw1 "enable_this_node").mp he))
    · have hok : ContextExecutionFuncWrapper func inst0 args kwargs ≠ Option.none := by
        simp only [ContextExecutionFuncWrapper, hc, he]
        exact Option.some_ne_none _
      have henkey2 : Kwargs.hasKey kw1 "enable_this_node" = true := by
        rcases h : Kwargs.hasKey kw1 "enable_this_node" with - | -
        · exact absurd he
            (by simp [(Kwargs.pop_eq_none_iff kw1 "enable_this_node").mpr h])
        · rfl
      exact iff_of_false hok (by simp [hckey, henkey ▸ henkey2])

/-- C9 witness: the equivalence applied at concrete keyword arguments
holding only a context entry, whose call therefore fails. -/
theorem contextWrapper_fails_iff_missing_keys_witness :
    ContextExecutionFuncWrapper (fun _ _ _ => []) {} []
        [("context", PyValue.int 1)] = Option.none :=
  (contextWrapper_fails_iff_missing_keys (fun _ _ _ => []) {} []
      [("context", PyValue.int 1)]).mpr (Or.inr (by decide))

/-- C10: Switch.execute reads only the first element of its selector
batch: on an empty batch it fails with an out-of-bounds index, its result
on a non-empty batch is independent of the elements after the first, and
it returns a value for every non-empty batch. -/
theorem switch_execute_reads_only_first (x y : PyValue) :
    Switch.execute x y [] = Option.none
    ∧ (∀ (b : Bool) (r r2 : List Bool),
        Switch.execute x y (b :: r) = Switch.execute x y (b :: r2))
    ∧ (∀ s : List Bool, s ≠ [] → (Switch.execute x y s).isSome = true) := by
  refine ⟨rfl, fun _ _ _ => rfl, ?_⟩
  intro s hs
  cases s with
  | nil => exact absurd rfl hs
  | cons b r => rfl

/-- C10 witness: the non-empty conjunct applied at a concrete two-element
selector batch. -/
theorem switch_execute_reads_only_first_witness :
    (Switch.execute (PyValue.str "a") (PyValue.int 2) [true, false]).isSome = true :=
  (switch_execute_reads_only_first (PyValue.str "a") (PyValue.int 2)).2.2
    [true, false] (by decide)
